import Mathlib

/-! # Verification of the SERP Intent Radar pipeline (`src/app.py`)

Shallow embedding of the rate-limited dispatcher (`RateLimitedExecutor`),
the SERP fetcher (`get_serp_raw`), the page-type classifier
(`detect_page_type`), the strategy generator (`analyze_strategy_raw`),
keyword deduplication and the batch collection/rendering loops, together
with theorems settling the specification's claims about them.

Conventions of the embedding:
* wall-clock time is modelled by `ℚ`; every statement takes zero time
  except `time.sleep`, which advances the clock by exactly its argument;
* fallible Python calls are modelled as `Except String _` values, the
  `String` being `str(e)` of the raised exception;
* external services (the search API, the generative model, `json.loads`,
  the repair model) are parameters of the embedded functions, so theorems
  quantify over their behaviour.
-/

/-- Test `charsStartWith needle hay`: `needle` occurs at the head of `hay`. -/
def charsStartWith : List Char → List Char → Bool
  | [], _ => true
  | _ :: _, [] => false
  | a :: as, b :: bs => a == b && charsStartWith as bs

/-- Occurrence of `needle` anywhere in `hay` (Python `needle in hay`). -/
def charsContain (needle : List Char) : List Char → Bool
  | [] => needle.isEmpty
  | c :: rest => charsStartWith needle (c :: rest) || charsContain needle rest

/-- Python substring test `needle in hay` on strings. -/
def strContains (hay needle : String) : Bool :=
  charsContain needle.toList hay.toList

/-- Python `str.lower()`; ASCII folding, which agrees with Python on every
marker string the program compares against. -/
def strLower (s : String) : String := String.mk (s.toList.map Char.toLower)

/-- Python `str.strip()` on a character list: drop whitespace from both
ends. -/
def trimChars (l : List Char) : List Char :=
  ((l.dropWhile Char.isWhitespace).reverse.dropWhile Char.isWhitespace).reverse

/-- Python `str.strip()`. -/
def pyStrip (s : String) : String := String.mk (trimChars s.toList)

/-- Leftmost non-overlapping replacement of `pat` by `rep`, fuelled by the
input length (the program only replaces non-empty patterns). -/
def replaceAux (pat rep : List Char) : ℕ → List Char → List Char
  | 0, l => l
  | _ + 1, [] => []
  | fuel + 1, a :: rest =>
      if charsStartWith pat (a :: rest) then
        rep ++ replaceAux pat rep fuel ((a :: rest).drop pat.length)
      else a :: replaceAux pat rep fuel rest

/-- Python `s.replace(pat, rep)`. -/
def pyReplace (s pat rep : String) : String :=
  String.mk (replaceAux pat.toList rep.toList s.toList.length s.toList)

/-- The dispatcher's shared statistics dictionary
(`RateLimitedExecutor.stats`, `app.py` lines 99-104). -/
structure Stats where
  serp_calls : ℕ := 0
  gemini_calls : ℕ := 0
  gemini_retries : ℕ := 0
  errors : List String := []
deriving DecidableEq, Repr

/-- The rate-limit markers of `call_gemini` (`app.py` line 140). -/
def rateLimitMarkers : List String := ["429", "quota", "rate", "limit"]

/-- Source `app.py` lines 139-140: classify an exception text as rate-limit
related when its lowercased form contains one of the markers. -/
def isRateLimit (e : String) : Bool :=
  rateLimitMarkers.any (fun x => strContains (strLower e) x)

/-- Source `app.py` line 131: `max_retries = 3`. -/
def max_retries : ℕ := 3

/-- Source `app.py` lines 124-128: under the lock, if less than
`gemini_min_interval` elapsed since `gemini_last_call`, sleep the
remainder; the result is the time at which `gemini_last_call` is updated
and the retry loop starts. -/
def gateStep (minInterval lastCall now : ℚ) : ℚ :=
  if now - lastCall < minInterval then lastCall + minInterval else now

/-- Source `app.py` lines 130-153: the exponential-backoff retry loop of
`call_gemini`.  `fn n` is the outcome of the `n`-th invocation of `func`,
`jitter a` the value drawn by `random.uniform(0.5, 1.5)` on attempt `a`,
`now` the current clock, `times` the start times of the invocations made
so far.  Returns the outcome, the updated stats and the invocation start
times. -/
def callGeminiLoop (fn : ℕ → Except String α) (jitter : ℕ → ℚ) :
    List ℕ → ℚ → Stats → List ℚ → Except String α × Stats × List ℚ
  | [], now, st, times =>
      -- line 153: the final call after the `for` loop (unreachable when
      -- `max_retries > 0`); no stats bookkeeping on this path.
      (fn times.length, st, times ++ [now])
  | attempt :: rest, now, st, times =>
      match fn times.length with
      | .ok v => (.ok v, { st with gemini_calls := st.gemini_calls + 1 }, times ++ [now])
      | .error e =>
          if isRateLimit e && decide (attempt < max_retries - 1) then
            callGeminiLoop fn jitter rest (now + ((2 : ℚ) ^ attempt + jitter attempt))
              { st with gemini_retries := st.gemini_retries + 1 } (times ++ [now])
          else
            (.error e, { st with errors := st.errors ++ ["Gemini: " ++ e] }, times ++ [now])

/-- Method `RateLimitedExecutor.call_gemini` (`app.py` lines 120-153): pass the
minimum-interval gate, then run the retry loop.  Returns the outcome, the
final stats, the invocation start times and the updated
`gemini_last_call`. -/
def call_gemini (fn : ℕ → Except String α) (jitter : ℕ → ℚ)
    (minInterval lastCall now : ℚ) (st : Stats) :
    Except String α × Stats × List ℚ × ℚ :=
  let g := gateStep minInterval lastCall now
  let r := callGeminiLoop fn jitter (List.range max_retries) g st []
  (r.1, r.2.1, r.2.2, g)

/-- The successive gate-passing times of `call_gemini` when the workers
reach the lock-protected gate (`app.py` lines 124-128) at the given
arrival times; the lock serializes the gate, and `gemini_last_call` is
threaded through. -/
def gateTimes (minInterval : ℚ) : ℚ → List ℚ → List ℚ
  | _, [] => []
  | lastCall, now :: rest =>
      gateStep minInterval lastCall now ::
        gateTimes minInterval (gateStep minInterval lastCall now) rest

/-- One raw item of a search-API response (`res["items"][i]`); Python
`item.get(...)` can yield `None`, hence `Option`. -/
structure SerpItem where
  link : Option String := none
  title : Option String := none
  snippet : Option String := none
  displayLink : Option String := none
deriving DecidableEq, Repr

/-- Marker lists of `detect_page_type` (`app.py` lines 299-309). -/
def forumMarkers : List String := ["ptt.cc", "dcard", "reddit", "mobile01"]

def socialMarkers : List String := ["youtube.com", "instagram.com", "tiktok.com"]

def ecommerceMarkers : List String := ["shopee", "momo", "pchome", "amazon", "/product/"]

def mediaMarkers : List String := ["udn.com", "ltn.com", "ettoday", "/news/"]

def titleMarkers : List String := ["價格", "優惠", "推薦"]

/-- Function `detect_page_type` (`app.py` lines 294-311). -/
def detect_page_type (item : SerpItem) : String :=
  let link := strLower (item.link.getD "")
  let title := strLower (item.title.getD "")
  if forumMarkers.any (fun x => strContains link x) then "UGC / Forum"
  else if socialMarkers.any (fun x => strContains link x) then "Social / Video"
  else if ecommerceMarkers.any (fun x => strContains link x) then "E-commerce"
  else if mediaMarkers.any (fun x => strContains link x) then "Media"
  else if strContains link "wiki" then "Wiki"
  else if titleMarkers.any (fun x => strContains title x) then "Commercial Content"
  else "General"

/-- The labels `detect_page_type` can return. -/
def pageTypeLabels : List String :=
  ["UGC / Forum", "Social / Video", "E-commerce", "Media", "Wiki",
   "Commercial Content", "General"]

/-- Source `app.py` lines 331-333: truncate a description longer than 200
characters to its first 200 characters (Python `desc[:200]`) plus
`"..."`. -/
def truncateDesc (desc : String) : String :=
  if desc.length > 200 then String.mk (desc.toList.take 200) ++ "..." else desc

/-- One normalized result record appended by `get_serp_raw`
(`app.py` lines 335-342). -/
structure SerpRecord where
  Rank : ℕ
  pageType : String
  Title : Option String
  Description : String
  DisplayLink : Option String
  URL : Option String
deriving DecidableEq, Repr

/-- The record built for `item` at absolute rank `rank`
(`app.py` lines 330-342). -/
def mkSerpRecord (rank : ℕ) (item : SerpItem) : SerpRecord :=
  { Rank := rank
    pageType := detect_page_type item
    Title := item.title
    Description := truncateDesc (item.snippet.getD "")
    DisplayLink := item.displayLink
    URL := item.link }

/-- Loop `for i, item in enumerate(res.get("items", []))` (`app.py` line 330):
records of one page, `i` being the enumeration index. -/
def pageRecords (start : ℕ) : ℕ → List SerpItem → List SerpRecord
  | _, [] => []
  | i, item :: rest => mkSerpRecord (start + i) item :: pageRecords start (i + 1) rest

/-- The page loop of `get_serp_raw` (`app.py` lines 319-346) over the
remaining page indices; `api start` is the item list of the response to
the search-API call with start index `start`.  Returns the accumulated
records and the list of start indices actually requested. -/
def serpLoop (api : ℕ → List SerpItem) :
    List ℕ → List SerpRecord → List SerpRecord × List ℕ
  | [], results => (results, [])
  | page :: rest, results =>
      let start := page * 10 + 1
      let next := serpLoop api rest (results ++ pageRecords start 0 (api start))
      (next.1, start :: next.2)

/-- Function `get_serp_raw` (`app.py` lines 314-347): fetch `pages` pages
(`for page in range(pages)`), returning the records and the start indices
of the issued search-API calls. -/
def get_serp_raw (api : ℕ → List SerpItem) (pages : ℕ) :
    List SerpRecord × List ℕ :=
  serpLoop api (List.range pages) []

/-- Dynamically-typed JSON values as produced by `json.loads`. -/
inductive Json where
  | null : Json
  | bool : Bool → Json
  | num : Int → Json
  | str : String → Json
  | arr : List Json → Json
  | obj : List (String × Json) → Json

/-- Python truthiness of a JSON value (`if fixed:` on `app.py`
line 410). -/
def pyTruthy : Json → Bool
  | .null => false
  | .bool b => b
  | .num n => n != 0
  | .str s => s != ""
  | .arr xs => !xs.isEmpty
  | .obj fs => !fs.isEmpty

/-- Source `app.py` line 406:
`raw.replace("```json", "").replace("```", "").strip()`. -/
def stripFences (s : String) : String :=
  pyStrip (pyReplace (pyReplace s "```json" "") "```" "")

/-- The SERP DataFrame as far as `analyze_strategy_raw` inspects it: its
column index (`pd.DataFrame(serp_data)` has no columns when `serp_data`
is empty). -/
structure DataFrame where
  columns : List String
deriving DecidableEq, Repr

/-- The columns selected on `app.py` line 377. -/
def requiredCols : List String :=
  ["Rank", "Type", "Title", "Description", "DisplayLink"]

/-- Text of the pandas `KeyError` raised by `df[[...]]` when none of the
requested columns exist; modelled from pandas (abridged: the real message
also carries quoting and the dtype, and contains no rate-limit marker
either). -/
def emptyDfKeyErr : String :=
  "KeyError: None of [Index([Rank, Type, Title, Description, DisplayLink], dtype=object)] are in the [columns]"

/-- Source `app.py` line 377: `df[["Rank", "Type", "Title", "Description",
"DisplayLink"]]` — raises a pandas `KeyError` when columns are missing.
This statement sits *before* the `try` of `analyze_strategy_raw`. -/
def colSelect (df : DataFrame) : Except String Unit :=
  if requiredCols.all (fun c => df.columns.contains c) then Except.ok ()
  else if requiredCols.all (fun c => !df.columns.contains c) then
    Except.error emptyDfKeyErr
  else Except.error "KeyError: not in index"

/-- Function `analyze_strategy_raw` (`app.py` lines 372-414).  `genText` is the
outcome of `model.generate_content(prompt)` followed by `.text` (error =
exception text), `parse` is `json.loads` (error = the
`json.JSONDecodeError` text), `repairFn` is `repair_json` restricted to
its two data arguments.  `genai.configure` and the `GenerativeModel`
construction (lines 374-375) are client-side bookkeeping and modelled as
non-raising; the column selection of line 377 — also before the `try` —
is `colSelect`.  Returns the Python return value (error = uncaught
exception) together with the list of `(broken_text, error)` argument
pairs passed to `repair_json`. -/
def analyze_strategy_raw (df : DataFrame) (genText : Except String String)
    (parse : String → Except String Json)
    (repairFn : String → String → Option Json) :
    Except String (Json × String) × List (String × String) :=
  match colSelect df with
  | .error e => (.error e, [])
  | .ok _ =>
      match genText with
      | .error e => (.ok (Json.obj [("error", Json.str e)], e), [])
      | .ok text =>
          let raw := pyStrip text
          match parse (stripFences raw) with
          | .ok j => (.ok (j, raw), [])
          | .error e =>
              match repairFn raw e with
              | some fixed =>
                  if pyTruthy fixed then (.ok (fixed, raw), [(raw, e)])
                  else
                    (.ok (Json.obj [("error", Json.str e),
                        ("raw_response", Json.str raw)], raw), [(raw, e)])
              | none =>
                  (.ok (Json.obj [("error", Json.str e),
                      ("raw_response", Json.str raw)], raw), [(raw, e)])

/-- The function `process_single_keyword` hands to
`executor.call_gemini` (`app.py` lines 500-502): every invocation
re-runs `analyze_strategy_raw` on the same arguments. -/
def analyzeFn (df : DataFrame) (genText : Except String String)
    (parse : String → Except String Json)
    (repairFn : String → String → Option Json) :
    ℕ → Except String (Json × String) :=
  fun _ => (analyze_strategy_raw df genText parse repairFn).1

/-- Assignment `all_results[kw] = result` on an `OrderedDict`
(`app.py` line 796): overwrite in place if present, else append. -/
def odInsert (m : List (String × R)) (k : String) (v : R) :
    List (String × R) :=
  if k ∈ m.map Prod.fst then
    m.map (fun p => if p.1 = k then (p.1, v) else p)
  else m ++ [(k, v)]

/-- The `as_completed` collection loop (`app.py` lines 784-800):
`completions` lists `(keyword, result)` in completion order; each is
written into the `OrderedDict`. -/
def collectResults (completions : List (String × R)) : List (String × R) :=
  completions.foldl (fun m kv => odInsert m kv.1 kv.2) []

/-- The rendering loop (`app.py` lines 830-833): iterate the original
`keywords`, skipping those with no collected record
(`if not r: continue`); returns the keywords rendered, in order. -/
def renderedKeywords (keywords : List String) (m : List (String × R)) :
    List String :=
  keywords.filter (fun kw => (List.lookup kw m).isSome)

/-- Python `dict.fromkeys` key insertion (`app.py` line 746): keep a key only on
its first occurrence, threading the set of keys already seen. -/
def fromKeysAux (seen : List String) : List String → List String
  | [] => []
  | k :: rest =>
      if seen.contains k then fromKeysAux seen rest
      else k :: fromKeysAux (k :: seen) rest

/-- Python `list(dict.fromkeys(l))` (`app.py` line 746). -/
def pyFromKeys (l : List String) : List String := fromKeysAux [] l

/-- The keyword list of `app.py` line 746 built from the input lines:
`list(dict.fromkeys([k.strip() for k in lines if k.strip()]))`. -/
def parseKeywords (lines : List String) : List String :=
  pyFromKeys ((lines.map pyStrip).filter (fun k => k != ""))

/-- Specification-side deduplication, following the spec's words
"removing duplicates while preserving first-occurrence order": keep each
element and drop its later duplicates. -/
def firstOccur : List String → List String
  | [] => []
  | k :: rest => k :: (firstOccur rest).filter (fun x => x != k)

/-! ## Theorems -/

/-- C1: a `fn` that raises a rate-limit-flavoured exception on every
invocation is invoked exactly 3 times by `call_gemini`, which then
re-raises the last exception, having incremented `gemini_retries` exactly
twice and appended exactly one entry to `errors`. -/
theorem c1_retry_ceiling {α : Type} (fn : ℕ → Except String α) (jitter : ℕ → ℚ)
    (minInterval lastCall now : ℚ) (st : Stats)
    (h : ∀ n, ∃ e, fn n = Except.error e ∧ isRateLimit e = true) :
    (call_gemini fn jitter minInterval lastCall now st).2.2.1.length = 3 ∧
    (call_gemini fn jitter minInterval lastCall now st).2.1.gemini_retries
      = st.gemini_retries + 2 ∧
    (call_gemini fn jitter minInterval lastCall now st).2.1.errors.length
      = st.errors.length + 1 ∧
    ∃ e, fn 2 = Except.error e ∧
      (call_gemini fn jitter minInterval lastCall now st).1 = Except.error e ∧
      (call_gemini fn jitter minInterval lastCall now st).2.1.errors
        = st.errors ++ ["Gemini: " ++ e] := by
  obtain ⟨e0, he0, hr0⟩ := h 0
  obtain ⟨e1, he1, hr1⟩ := h 1
  obtain ⟨e2, he2, hr2⟩ := h 2
  simp only [call_gemini, max_retries, callGeminiLoop, List.length_nil,
    List.nil_append, List.length_cons, List.cons_append, List.length_append,
    he0, he1, he2, hr0, hr1, hr2, Bool.true_and, List.range_succ,
    List.range_zero, List.append_assoc, List.singleton_append]
  norm_num

/-- Witness for `c1_retry_ceiling` at the always-`"429"`-raising
function. -/
theorem c1_retry_ceiling_witness :
    (call_gemini (fun _ : ℕ => (Except.error "429" : Except String Unit))
        (fun _ => 1) 1 0 0 {}).2.2.1.length = 3 ∧
    (call_gemini (fun _ : ℕ => (Except.error "429" : Except String Unit))
        (fun _ => 1) 1 0 0 {}).2.1.gemini_retries
      = ({} : Stats).gemini_retries + 2 := by
  have h := c1_retry_ceiling (fun _ : ℕ => (Except.error "429" : Except String Unit))
    (fun _ => 1) 1 0 0 {} (fun n => ⟨"429", rfl, by decide⟩)
  exact ⟨h.1, h.2.1⟩

/-- The gate never passes earlier than `gemini_last_call` plus the
minimum interval. -/
theorem gateStep_ge (mi last now : ℚ) : last + mi ≤ gateStep mi last now := by
  unfold gateStep; split <;> linarith

/-- The gate produces one pass time per arrival. -/
theorem gateTimes_length (mi : ℚ) (arr : List ℚ) :
    ∀ last : ℚ, (gateTimes mi last arr).length = arr.length := by
  induction arr with
  | nil => intro last; rfl
  | cons a rest ih => intro last; simp [gateTimes, ih]

/-- Consecutive gate-pass times are at least the minimum interval
apart. -/
theorem gateTimes_gap (mi : ℚ) (arr : List ℚ) :
    ∀ (last : ℚ) (i : ℕ) (h : i + 1 < (gateTimes mi last arr).length),
      mi ≤ (gateTimes mi last arr).get ⟨i + 1, h⟩
            - (gateTimes mi last arr).get ⟨i, Nat.lt_of_succ_lt h⟩ := by
  induction arr with
  | nil => intro last i h; simp [gateTimes] at h
  | cons a rest ih =>
    intro last i h
    cases rest with
    | nil => simp [gateTimes] at h
    | cons b rest2 =>
      cases i with
      | zero =>
        simp only [gateTimes, List.get]
        have := gateStep_ge mi (gateStep mi last a) b
        linarith
      | succ j =>
        have h' : j + 1 < (gateTimes mi (gateStep mi last a) (b :: rest2)).length := by
          simpa [gateTimes] using h
        have := ih (gateStep mi last a) j h'
        simpa [gateTimes, List.get] using this

/-- The retry loop's first invocation of `fn` happens exactly at the time
the loop is entered. -/
theorem callGeminiLoop_times_shape {α : Type} (fn : ℕ → Except String α)
    (jitter : ℕ → ℚ) :
    ∀ (attempts : List ℕ) (now : ℚ) (st : Stats) (times : List ℚ),
      ∃ rest, (callGeminiLoop fn jitter attempts now st times).2.2
        = times ++ now :: rest := by
  intro attempts
  induction attempts with
  | nil => intro now st times; exact ⟨[], rfl⟩
  | cons a as ih =>
    intro now st times
    cases hfn : fn times.length with
    | ok v => exact ⟨[], by simp [callGeminiLoop, hfn]⟩
    | error e =>
      by_cases hc : (isRateLimit e && decide (a < max_retries - 1)) = true
      · obtain ⟨r, hr⟩ := ih (now + ((2 : ℚ) ^ a + jitter a))
          { st with gemini_retries := st.gemini_retries + 1 } (times ++ [now])
        refine ⟨(now + ((2 : ℚ) ^ a + jitter a)) :: r, ?_⟩
        simp [callGeminiLoop, hfn, hc, hr]
      · have hc' : ¬(isRateLimit e = true ∧ a < max_retries - 1) := by
          rintro ⟨h1, h2⟩
          exact hc (by simp [h1, h2])
        exact ⟨[], by simp [callGeminiLoop, hfn, hc']⟩

/-- C2 (amended): the lock-serialized minimum-interval gate does space
gate-pass times — hence the *first* invocation of `fn` inside each
`call_gemini` call, which starts exactly at the gate-pass time — at least
`gemini_min_interval` apart across all workers; retry invocations inside
the backoff loop bypass the gate (see the counterexample). -/
theorem c2_min_interval_gate :
    (∀ (mi last : ℚ) (arr : List ℚ) (i : ℕ)
        (h : i + 1 < (gateTimes mi last arr).length),
        mi ≤ (gateTimes mi last arr).get ⟨i + 1, h⟩
              - (gateTimes mi last arr).get ⟨i, Nat.lt_of_succ_lt h⟩) ∧
    (∀ (α : Type) (fn : ℕ → Except String α) (jitter : ℕ → ℚ)
        (mi last now : ℚ) (st : Stats),
        ((call_gemini fn jitter mi last now st).2.2.1).head?
          = some (gateStep mi last now)) := by
  constructor
  · intro mi last arr i h
    exact gateTimes_gap mi arr last i h
  · intro α fn jitter mi last now st
    obtain ⟨r, hr⟩ := callGeminiLoop_times_shape fn jitter
      (List.range max_retries) (gateStep mi last now) st []
    simp [call_gemini, hr]

/-- Witness for `c2_min_interval_gate` on two back-to-back arrivals with
a 3-second interval. -/
theorem c2_min_interval_gate_witness :
    ((3 : ℚ) ≤ (gateTimes 3 0 [0, 0]).get ⟨1, by simp [gateTimes_length]⟩
        - (gateTimes 3 0 [0, 0]).get ⟨0, by simp [gateTimes_length]⟩) ∧
    ((call_gemini (fun _ : ℕ => (Except.ok () : Except String Unit))
        (fun _ => 1) 3 0 0 {}).2.2.1).head? = some (gateStep 3 0 0) :=
  ⟨c2_min_interval_gate.1 3 0 [0, 0] 0 (by simp [gateTimes_length]),
   c2_min_interval_gate.2 Unit (fun _ => Except.ok ()) (fun _ => 1) 3 0 0 {}⟩

/-- C2 counterexample: with `gemini_min_interval = 3` (an allowed slider
value) and jitter 1 (inside `random.uniform(0.5, 1.5)`), one
`call_gemini` whose wrapped function keeps raising `"429"` starts its
second invocation of `fn` only `2^0 + 1 = 2 < 3` seconds after its first:
retry invocations bypass the minimum-interval gate, refuting the claim
for pairs that include them. -/
theorem c2_min_interval_cex :
    (call_gemini (fun _ : ℕ => (Except.error "429" : Except String Unit))
        (fun _ => 1) 3 0 10 {}).2.2.1 = [10, 12, 15] ∧
    ((12 : ℚ) - 10 < 3) ∧
    ((1 / 2 : ℚ) ≤ 1 ∧ (1 : ℚ) ≤ 3 / 2) ∧
    ((1 / 2 : ℚ) ≤ 3 ∧ (3 : ℚ) ≤ 3) := by
  refine ⟨?_, by norm_num, ⟨by norm_num, by norm_num⟩, ⟨by norm_num, le_refl _⟩⟩
  have h429 : isRateLimit "429" = true := by decide
  simp only [call_gemini, max_retries, List.range_succ, List.range_zero,
    List.nil_append, List.cons_append, List.singleton_append, callGeminiLoop,
    List.length_nil, List.length_cons, List.length_append, h429,
    Bool.true_and, gateStep]
  norm_num

/-- The page loop requests start indices `p * 10 + 1` for every remaining
page index `p`, whatever the responses contain. -/
theorem serpLoop_calls (api : ℕ → List SerpItem) :
    ∀ (ps : List ℕ) (acc : List SerpRecord),
      (serpLoop api ps acc).2 = ps.map (fun p => p * 10 + 1) := by
  intro ps
  induction ps with
  | nil => intro acc; rfl
  | cons p rest ih => intro acc; simp [serpLoop, ih]

/-- C3 (amended): `get_serp_raw` always issues exactly `pages` search-API
calls, with start indices `1, 11, …, (pages-1)*10+1`, regardless of how
many items each response returns: the code has no empty-page
short-circuit. -/
theorem c3_call_count (api : ℕ → List SerpItem) (pages : ℕ) :
    (get_serp_raw api pages).2 = (List.range pages).map (fun p => p * 10 + 1) :=
  serpLoop_calls api (List.range pages) []

/-- C3 counterexample: an API returning zero items for every page —
page 1 included — still receives the page-2 call (start index 11) when
two pages are requested, refuting the claimed short-circuit. -/
theorem c3_short_circuit_cex :
    ((fun _ : ℕ => ([] : List SerpItem)) 1 = []) ∧
    (get_serp_raw (fun _ : ℕ => ([] : List SerpItem)) 2).2 = [1, 11] ∧
    11 ∈ (get_serp_raw (fun _ : ℕ => ([] : List SerpItem)) 2).2 :=
  ⟨rfl, by decide, by decide⟩

/-- The records accumulated by the page loop are the concatenation of the
per-page records. -/
theorem serpLoop_fst (api : ℕ → List SerpItem) :
    ∀ (ps : List ℕ) (acc : List SerpRecord),
      (serpLoop api ps acc).1
        = acc ++ (ps.map (fun p => pageRecords (p * 10 + 1) 0 (api (p * 10 + 1)))).flatten := by
  intro ps
  induction ps with
  | nil => intro acc; simp [serpLoop]
  | cons p rest ih => intro acc; simp [serpLoop, ih]

/-- The ranks of one page's records are `start + i, …` for the
enumeration indices `i`. -/
theorem pageRecords_map_rank (start : ℕ) :
    ∀ (items : List SerpItem) (i : ℕ),
      (pageRecords start i items).map SerpRecord.Rank
        = List.range' (start + i) items.length := by
  intro items
  induction items with
  | nil => intro i; rfl
  | cons item rest ih =>
    intro i
    simp only [pageRecords, List.map_cons, List.length_cons, mkSerpRecord]
    rw [show List.range' (start + i) (rest.length + 1)
        = (start + i) :: List.range' (start + i + 1) rest.length from rfl]
    rw [Nat.add_assoc]
    rw [ih (i + 1)]

/-- Concatenating the per-page rank ranges of `P` full pages yields
`1 .. 10P`. -/
theorem ranks_flatten :
    ∀ P : ℕ, ((List.range P).map (fun p => List.range' (p * 10 + 1) 10)).flatten
      = List.range' 1 (10 * P) := by
  intro P
  induction P with
  | zero => rfl
  | succ n ih =>
    rw [List.range_succ, List.map_append, List.flatten_append, ih]
    simp only [List.map_cons, List.map_nil, List.flatten_cons, List.flatten_nil,
      List.append_nil]
    have h := List.range'_append 1 (10 * n) 10 1
    simp only [one_mul] at h
    rw [show n * 10 + 1 = 1 + 10 * n by ring]
    rw [show 10 * (n + 1) = 10 + 10 * n by ring]
    exact h

/-- C4 (amended): over `P` pages of exactly 10 items each, the ranks are
exactly `1 .. 10P` in order with no gaps or duplicates, and the page with
0-indexed loop variable `page` (1-indexed page `page + 1`) covers ranks
`page*10+1 .. page*10+10` — not `10p+1 .. 10p+10` for the 1-indexed
number `p`. -/
theorem c4_rank_continuity (api : ℕ → List SerpItem) (P : ℕ)
    (h : ∀ s : ℕ, (api s).length = 10) :
    (get_serp_raw api P).1.map SerpRecord.Rank = List.range' 1 (10 * P) ∧
    (∀ page : ℕ, page < P →
      (pageRecords (page * 10 + 1) 0 (api (page * 10 + 1))).map SerpRecord.Rank
        = List.range' (page * 10 + 1) 10) := by
  constructor
  · rw [get_serp_raw, serpLoop_fst]
    simp only [List.nil_append, List.map_flatten, List.map_map]
    have hfun : (List.map SerpRecord.Rank ∘
        fun p => pageRecords (p * 10 + 1) 0 (api (p * 10 + 1)))
        = fun p => List.range' (p * 10 + 1) 10 := by
      funext p
      simp only [Function.comp_apply]
      rw [pageRecords_map_rank, h, Nat.add_zero]
    rw [hfun, ranks_flatten]
  · intro page _
    rw [pageRecords_map_rank, h, Nat.add_zero]

/-- Witness for `c4_rank_continuity`: two full pages of 10 items give
ranks `1 .. 20`. -/
theorem c4_rank_continuity_witness :
    (get_serp_raw (fun _ : ℕ => List.replicate 10 ({} : SerpItem)) 2).1.map
        SerpRecord.Rank = List.range' 1 (10 * 2) :=
  (c4_rank_continuity (fun _ => List.replicate 10 ({} : SerpItem)) 2
    (fun _ => rfl)).1

/-- C4 counterexample to the 1-indexed formula: the first page (1-indexed
`p = 1`) of a full 10-item response yields ranks `1 .. 10`, not the
`10p+1 .. 10p+10 = 11 .. 20` the spec's formula gives for `p = 1`. -/
theorem c4_rank_formula_cex :
    ((get_serp_raw (fun _ : ℕ => List.replicate 10 ({} : SerpItem)) 1).1.map
        SerpRecord.Rank = List.range' 1 10) ∧
    List.range' 1 10 ≠ List.range' (10 * 1 + 1) 10 :=
  ⟨by decide, by decide⟩

/-- C5: when JSON parsing of the model text fails, `analyze_strategy_raw`
invokes `repair_json` exactly once, passing the stripped raw response
text and the parse-error message; if the repair returns `None` it returns
(not raises) an error dict carrying the parse error and the raw text; and
any non-parse exception is returned as an error dict holding the
exception's message. -/
theorem c5_parse_failure_handling
    (df : DataFrame) (parse : String → Except String Json)
    (repairFn : String → String → Option Json) (text e : String)
    (hdf : colSelect df = Except.ok ())
    (hp : parse (stripFences (pyStrip text)) = Except.error e) :
    ((analyze_strategy_raw df (Except.ok text) parse repairFn).2
      = [(pyStrip text, e)]) ∧
    (repairFn (pyStrip text) e = none →
      (analyze_strategy_raw df (Except.ok text) parse repairFn).1
        = Except.ok (Json.obj [("error", Json.str e),
            ("raw_response", Json.str (pyStrip text))], pyStrip text)) ∧
    (∀ e2 : String,
      (analyze_strategy_raw df (Except.error e2) parse repairFn).1
        = Except.ok (Json.obj [("error", Json.str e2)], e2) ∧
      (analyze_strategy_raw df (Except.error e2) parse repairFn).2 = []) := by
  refine ⟨?_, ?_, ?_⟩
  · simp only [analyze_strategy_raw, hdf, hp]
    cases hr : repairFn (pyStrip text) e
    · simp
    · simp only []
      split <;> rfl
  · intro hnone
    simp [analyze_strategy_raw, hdf, hp, hnone]
  · intro e2
    exact ⟨by simp [analyze_strategy_raw, hdf], by simp [analyze_strategy_raw, hdf]⟩

/-- Witness for `c5_parse_failure_handling`: a well-formed DataFrame, a
parse that always fails, an unrepairable text. -/
theorem c5_parse_failure_handling_witness :
    (analyze_strategy_raw ⟨requiredCols⟩ (Except.ok "nonsense")
        (fun _ => Except.error "Expecting value") (fun _ _ => none)).2
      = [(pyStrip "nonsense", "Expecting value")] :=
  (c5_parse_failure_handling ⟨requiredCols⟩
    (fun _ => Except.error "Expecting value") (fun _ _ => none)
    "nonsense" "Expecting value" rfl rfl).1

/-- C10 counterexample: with an empty SERP DataFrame (as produced when
every page of a keyword returns zero items), the column selection on
`app.py` line 377 — which sits *before* the `try` — raises, so the `fn`
wrapped by `call_gemini` does raise; the exception is classified
non-rate-limit and recorded as a `"Gemini:"` error by the dispatcher,
which re-raises it after a single invocation. -/
theorem c10_dispatcher_branch_cex :
    (analyzeFn ⟨[]⟩ (Except.ok "") (fun _ => Except.error "p") (fun _ _ => none) 0
      = Except.error emptyDfKeyErr) ∧
    isRateLimit emptyDfKeyErr = false ∧
    (call_gemini (analyzeFn ⟨[]⟩ (Except.ok "") (fun _ => Except.error "p")
        (fun _ _ => none)) (fun _ => 1) 1 0 0 {}).1 = Except.error emptyDfKeyErr ∧
    (call_gemini (analyzeFn ⟨[]⟩ (Except.ok "") (fun _ => Except.error "p")
        (fun _ _ => none)) (fun _ => 1) 1 0 0 {}).2.1.errors
      = ["Gemini: " ++ emptyDfKeyErr] ∧
    (call_gemini (analyzeFn ⟨[]⟩ (Except.ok "") (fun _ => Except.error "p")
        (fun _ _ => none)) (fun _ => 1) 1 0 0 {}).2.1.gemini_retries = 0 ∧
    (call_gemini (analyzeFn ⟨[]⟩ (Except.ok "") (fun _ => Except.error "p")
        (fun _ _ => none)) (fun _ => 1) 1 0 0 {}).2.2.1.length = 1 := by
  have hfn : analyzeFn ⟨[]⟩ (Except.ok "") (fun _ => Except.error "p")
      (fun _ _ => none) = fun _ => Except.error emptyDfKeyErr := rfl
  have hii : isRateLimit emptyDfKeyErr = false := by decide
  refine ⟨rfl, hii, ?_, ?_, ?_, ?_⟩ <;>
    simp [call_gemini, max_retries, List.range_succ, List.range_zero,
      callGeminiLoop, hfn, hii]

/-- C10 (amended): once the statements *before* the `try` succeed (the
column selection in particular), `analyze_strategy_raw` returns a value
on every path — so for that path `call_gemini` invokes `fn` once, never
retries and records no error; but the pre-`try` prefix can raise (see the
counterexample), so the dispatcher's error branch is reachable. -/
theorem c10_analyze_no_raise :
    (∀ (df : DataFrame) (genText : Except String String)
        (parse : String → Except String Json)
        (repairFn : String → String → Option Json),
        colSelect df = Except.ok () →
        ∃ v, (analyze_strategy_raw df genText parse repairFn).1 = Except.ok v) ∧
    (∀ (α : Type) (fn : ℕ → Except String α) (jitter : ℕ → ℚ)
        (mi last now : ℚ) (st : Stats),
        (∀ n, ∃ v, fn n = Except.ok v) →
        (call_gemini fn jitter mi last now st).2.1.gemini_retries
            = st.gemini_retries ∧
        (call_gemini fn jitter mi last now st).2.1.errors = st.errors ∧
        (call_gemini fn jitter mi last now st).2.2.1.length = 1 ∧
        (call_gemini fn jitter mi last now st).2.1.gemini_calls
            = st.gemini_calls + 1) := by
  constructor
  · intro df genText parse repairFn hdf
    cases genText with
    | error e =>
      exact ⟨(Json.obj [("error", Json.str e)], e),
        by simp [analyze_strategy_raw, hdf]⟩
    | ok text =>
      simp only [analyze_strategy_raw, hdf]
      cases hp : parse (stripFences (pyStrip text)) with
      | ok j => simp
      | error e =>
        cases hr : repairFn (pyStrip text) e with
        | none => simp [hr]
        | some f =>
          simp only [hr]
          split <;> simp
  · intro α fn jitter mi last now st h
    obtain ⟨v, hv⟩ := h 0
    have hrange : List.range max_retries = [0, 1, 2] := rfl
    simp [call_gemini, hrange, callGeminiLoop, hv]

/-- Witness for `c10_analyze_no_raise` on concrete inputs. -/
theorem c10_analyze_no_raise_witness :
    (∃ v, (analyze_strategy_raw ⟨requiredCols⟩ (Except.ok "x")
        (fun _ => Except.error "p") (fun _ _ => none)).1 = Except.ok v) ∧
    (call_gemini (fun _ : ℕ => (Except.ok () : Except String Unit))
        (fun _ => 1) 1 0 0 {}).2.1.gemini_retries
      = ({} : Stats).gemini_retries :=
  ⟨c10_analyze_no_raise.1 ⟨requiredCols⟩ (Except.ok "x")
      (fun _ => Except.error "p") (fun _ _ => none) rfl,
   (c10_analyze_no_raise.2 Unit (fun _ => Except.ok ()) (fun _ => 1) 1 0 0 {}
      (fun _ => ⟨(), rfl⟩)).1⟩

/-- Inserting a fresh key into the ordered dict appends it. -/
theorem odInsert_keys_new {R : Type} (m : List (String × R)) (k : String)
    (v : R) (h : k ∉ m.map Prod.fst) : odInsert m k v = m ++ [(k, v)] := by
  simp [odInsert, h]

/-- Folding completions with pairwise-distinct fresh keys into the
ordered dict appends their keys in completion order. -/
theorem collect_keys {R : Type} :
    ∀ (l : List (String × R)) (m : List (String × R)),
      (∀ k ∈ l.map Prod.fst, k ∉ m.map Prod.fst) → (l.map Prod.fst).Nodup →
      (l.foldl (fun m kv => odInsert m kv.1 kv.2) m).map Prod.fst
        = m.map Prod.fst ++ l.map Prod.fst := by
  intro l
  induction l with
  | nil => intro m _ _; simp
  | cons kv rest ih =>
    intro m hdis hnd
    simp only [List.map_cons, List.nodup_cons] at hnd
    simp only [List.foldl_cons]
    rw [odInsert_keys_new m kv.1 kv.2 (hdis kv.1 (by simp))]
    rw [ih (m ++ [(kv.1, kv.2)]) ?_ hnd.2]
    · simp
    · intro k hk
      simp only [List.map_append, List.mem_append, List.map_cons,
        List.map_nil, List.mem_singleton]
      rintro (hkm | hkk)
      · exact hdis k (by simp [hk]) hkm
      · exact hnd.1 (hkk ▸ hk)

/-- A key occurring among an association list's keys has a `lookup`
hit. -/
theorem lookup_isSome_of_mem_keys {R : Type} :
    ∀ (m : List (String × R)) (k : String), k ∈ m.map Prod.fst →
      (List.lookup k m).isSome = true := by
  intro m
  induction m with
  | nil => intro k h; simp at h
  | cons p rest ih =>
    obtain ⟨k', v'⟩ := p
    intro k h
    simp only [List.map_cons, List.mem_cons] at h
    by_cases hk : k == k'
    · simp [List.lookup, hk]
    · rcases h with h1 | h2
      · exact absurd (by simp [h1]) hk
      · simp only [List.lookup, hk]
        exact ih k h2

/-- C6: whatever the completion order of the per-keyword futures — any
permutation of the deduplicated keyword list — the collected
`OrderedDict` holds exactly one record per submitted keyword, and the
rendering loop iterates precisely the original keyword order. -/
theorem c6_batch_order {R : Type} (keywords : List String)
    (completions : List (String × R))
    (hnd : keywords.Nodup)
    (hperm : (completions.map Prod.fst).Perm keywords) :
    ((collectResults completions).map Prod.fst = completions.map Prod.fst) ∧
    (∀ kw ∈ keywords, ((collectResults completions).map Prod.fst).count kw = 1) ∧
    renderedKeywords keywords (collectResults completions) = keywords := by
  have hndc : (completions.map Prod.fst).Nodup := hperm.nodup_iff.mpr hnd
  have hkeys : (collectResults completions).map Prod.fst
      = completions.map Prod.fst := by
    have h := collect_keys completions [] (by simp) hndc
    simpa [collectResults] using h
  refine ⟨hkeys, ?_, ?_⟩
  · intro kw hkw
    rw [hkeys]
    exact List.count_eq_one_of_mem hndc (hperm.mem_iff.mpr hkw)
  · unfold renderedKeywords
    apply List.filter_eq_self.mpr
    intro kw hkw
    have hmem : kw ∈ (collectResults completions).map Prod.fst := by
      rw [hkeys]
      exact hperm.mem_iff.mpr hkw
    simpa using lookup_isSome_of_mem_keys (collectResults completions) kw hmem

/-- Witness for `c6_batch_order`: three keywords completing in the order
c, a, b still render as a, b, c. -/
theorem c6_batch_order_witness :
    renderedKeywords ["a", "b", "c"]
      (collectResults [("c", 3), ("a", 1), ("b", 2)]) = ["a", "b", "c"] :=
  (c6_batch_order ["a", "b", "c"] [("c", (3 : ℕ)), ("a", 1), ("b", 2)]
    (by decide) (by decide)).2.2

/-- C7: `detect_page_type` is total and deterministic, always returning
one label of the fixed list via first-match-wins priority; when no forum
marker matches the link, a link containing `youtube.com` wins over any
price keyword in the title, because link rules precede title rules. -/
theorem c7_classifier :
    (∀ item : SerpItem, detect_page_type item ∈ pageTypeLabels) ∧
    (∀ item : SerpItem,
      forumMarkers.all
          (fun m => !strContains (strLower (item.link.getD "")) m) = true →
      strContains (strLower (item.link.getD "")) "youtube.com" = true →
      titleMarkers.any
          (fun m => strContains (strLower (item.title.getD "")) m) = true →
      detect_page_type item = "Social / Video") := by
  constructor
  · intro item
    simp only [detect_page_type]
    repeat' split
    all_goals simp [pageTypeLabels]
  · intro item hforum hyt _
    have h1 : (forumMarkers.any
        fun x => strContains (strLower (item.link.getD "")) x) = false := by
      simp only [List.all_eq_true, Bool.not_eq_eq_eq_not, Bool.not_true] at hforum
      simp [List.any_eq_false]
      exact hforum
    have h2 : (socialMarkers.any
        fun x => strContains (strLower (item.link.getD "")) x) = true := by
      simp only [List.any_eq_true]
      exact ⟨"youtube.com", by simp [socialMarkers], hyt⟩
    simp [detect_page_type, h1, h2]

/-- Witness for `c7_classifier`: a plain YouTube link with a commercial
title keyword classifies as Social / Video. -/
theorem c7_classifier_witness :
    detect_page_type
      { link := some "https://www.youtube.com/watch?v=abc",
        title := some "2024 推薦 top 10" } = "Social / Video" :=
  c7_classifier.2
    { link := some "https://www.youtube.com/watch?v=abc",
      title := some "2024 推薦 top 10" }
    (by decide) (by decide) (by decide)

/-- C7 counterexample: a link containing both a forum marker and
`youtube.com`, with a price keyword in the title, classifies as
`UGC / Forum` — not `Social / Video` — because the forum rule fires
first; so the claim's unconditional "youtube link + price title ⇒
Social / Video" fails. -/
theorem c7_priority_cex :
    strContains (strLower "https://www.reddit.com/watch?v=youtube.com")
        "youtube.com" = true ∧
    (titleMarkers.any fun m =>
        strContains (strLower "優惠 top picks") m) = true ∧
    detect_page_type
        { link := some "https://www.reddit.com/watch?v=youtube.com",
          title := some "優惠 top picks" } = "UGC / Forum" ∧
    detect_page_type
        { link := some "https://www.reddit.com/watch?v=youtube.com",
          title := some "優惠 top picks" } ≠ "Social / Video" :=
  ⟨by decide, by decide, by decide, by decide⟩

/-- Every record produced by the page loop is built by
`mkSerpRecord`. -/
theorem pageRecords_mem {start : ℕ} :
    ∀ (items : List SerpItem) (i : ℕ) (r : SerpRecord),
      r ∈ pageRecords start i items →
      ∃ rank item, r = mkSerpRecord rank item := by
  intro items
  induction items with
  | nil => intro i r h; simp [pageRecords] at h
  | cons it rest ih =>
    intro i r h
    simp only [pageRecords, List.mem_cons] at h
    rcases h with h | h
    · exact ⟨start + i, it, h⟩
    · exact ih (i + 1) r h

/-- The stored description never exceeds 203 characters. -/
theorem truncateDesc_len (s : String) : (truncateDesc s).length ≤ 203 := by
  unfold truncateDesc
  split
  · have hlen : (String.mk (s.toList.take 200) ++ "...").length
        = (s.toList.take 200).length + 3 := by
      rw [String.length_append]; rfl
    rw [hlen, List.length_take]
    omega
  · omega

/-- C8: descriptions longer than 200 characters are stored as their first
200 characters plus the 3-character `"..."` (total length 203); shorter
ones are stored unchanged; hence every record of `get_serp_raw` carries a
description of at most 203 characters. -/
theorem c8_truncation :
    (∀ s : String,
      (200 < s.length →
        truncateDesc s = String.mk (s.toList.take 200) ++ "..." ∧
        (truncateDesc s).length = 203) ∧
      (s.length ≤ 200 → truncateDesc s = s)) ∧
    (∀ (api : ℕ → List SerpItem) (pages : ℕ) (r : SerpRecord),
      r ∈ (get_serp_raw api pages).1 → r.Description.length ≤ 203) := by
  constructor
  · intro s
    constructor
    · intro h
      rw [truncateDesc, if_pos h]
      refine ⟨rfl, ?_⟩
      have hlen : (String.mk (s.toList.take 200) ++ "...").length
          = (s.toList.take 200).length + 3 := by
        rw [String.length_append]; rfl
      have hsl : s.toList.length = s.length := rfl
      rw [hlen, List.length_take, hsl]
      omega
    · intro h
      rw [truncateDesc, if_neg (by omega)]
  · intro api pages r hr
    rw [get_serp_raw, serpLoop_fst] at hr
    simp only [List.nil_append, List.mem_flatten, List.mem_map] at hr
    obtain ⟨l, ⟨p, hp, rfl⟩, hrl⟩ := hr
    obtain ⟨rank, item, rfl⟩ := pageRecords_mem (api (p * 10 + 1)) 0 r hrl
    simp only [mkSerpRecord]
    exact truncateDesc_len _

/-- Witness for `c8_truncation`: a 201-character string is truncated to
length 203; a short string is untouched. -/
theorem c8_truncation_witness :
    (truncateDesc (String.mk (List.replicate 201 'a'))).length = 203 ∧
    truncateDesc "ok" = "ok" :=
  ⟨((c8_truncation.1 (String.mk (List.replicate 201 'a'))).1
      (by show 200 < (List.replicate 201 'a').length; rw [List.length_replicate]; omega)).2,
   (c8_truncation.1 "ok").2 (by decide)⟩

/-- Python `dict.fromkeys` insertion with a seen-set equals first-occurrence
deduplication filtered by the seen-set. -/
theorem fromKeysAux_eq (l : List String) :
    ∀ seen : List String,
      fromKeysAux seen l = (firstOccur l).filter (fun x => !seen.contains x) := by
  induction l with
  | nil => intro seen; rfl
  | cons k rest ih =>
    intro seen
    by_cases hk : seen.contains k = true
    · simp only [fromKeysAux, hk, firstOccur, List.filter_cons, Bool.not_true,
        Bool.false_eq_true, eq_self_iff_true, if_true, if_false]
      rw [ih seen, List.filter_filter]
      apply List.filter_congr
      intro x _
      cases hsx : seen.contains x with
      | true => simp
      | false =>
        have hxk : (x == k) = false := by
          cases hxe : x == k with
          | false => rfl
          | true =>
            rw [show x = k from by simpa using hxe] at hsx
            rw [hsx] at hk
            cases hk
        simp [bne, hxk]
    · have hk' : seen.contains k = false := by simpa using hk
      simp only [fromKeysAux, hk', Bool.not_false, Bool.false_eq_true,
        eq_self_iff_true, if_true, if_false, firstOccur, List.filter_cons]
      rw [ih (k :: seen), List.filter_filter]
      congr 1
      apply List.filter_congr
      intro x _
      cases hsx : seen.contains x with
      | true => simp_all
      | false =>
        cases hxe : x == k with
        | true => simp_all
        | false => simp_all

/-- Python `list(dict.fromkeys(l))` is exactly first-occurrence
deduplication. -/
theorem pyFromKeys_eq_firstOccur (l : List String) :
    pyFromKeys l = firstOccur l := by
  rw [pyFromKeys, fromKeysAux_eq]
  simp

/-- First-occurrence deduplication yields no duplicates. -/
theorem firstOccur_nodup (l : List String) : (firstOccur l).Nodup := by
  induction l with
  | nil => exact List.nodup_nil
  | cons k rest ih =>
    simp only [firstOccur, List.nodup_cons]
    refine ⟨?_, ih.filter _⟩
    intro hmem
    have := (List.mem_filter.mp hmem).2
    simp [bne] at this

/-- C9: the submitted keyword list strips each line, drops blank lines
and removes duplicates keeping first occurrences in order; in particular
the lines `["a", "b", "a", " b "]` yield exactly `["a", "b"]`. -/
theorem c9_dedup :
    (parseKeywords ["a", "b", "a", " b "] = ["a", "b"]) ∧
    (∀ lines : List String,
      parseKeywords lines
        = firstOccur ((lines.map pyStrip).filter (fun k => k != ""))) ∧
    (∀ l : List String, pyFromKeys l = firstOccur l) ∧
    (∀ l : List String, (pyFromKeys l).Nodup) := by
  refine ⟨by decide, ?_, pyFromKeys_eq_firstOccur, ?_⟩
  · intro lines
    rw [parseKeywords, pyFromKeys_eq_firstOccur]
  · intro l
    rw [pyFromKeys_eq_firstOccur]
    exact firstOccur_nodup l
